import Mathlib

/-!
Verification of the conversation session cache and streaming inference proxy
implemented in `prompt-portal/backend_cpp/src/llm_client.cpp`.

The C++ code is shallowly embedded: pure data flow becomes Lean functions,
the mutable session map becomes explicit store passing, fallible upstream
calls become `Except`/sum types, and the callback-based streaming interface
is represented by the list of chunk strings handed to the callback, in
delivery order.  Machine integers (`int`, `int64_t`) are modelled as `Int`.
-/

namespace PromptPortal

/-- Mirrors `struct ChatMessage { std::string role; std::string content; }`
(`llm_client.hpp`, lines 14-17). -/
structure ChatMessage where
  role : String
  content : String
deriving DecidableEq, Repr

/-- Mirrors `SessionManager::Session` (`llm_client.hpp`, lines 122-127):
`std::vector<ChatMessage> dialog; int64_t created_at; int64_t last_access;
int message_count;`. -/
structure Session where
  dialog : List ChatMessage
  created_at : Int
  last_access : Int
  message_count : Int
deriving DecidableEq, Repr

/-- The session map `std::map<std::string, Session> sessions_`, modelled as an
association list with the unique-key discipline maintained by the update
operations below (`std::map` iteration order is never observed by the code). -/
def Store := List (String × Session)
deriving DecidableEq

/-- Empty session map: the initial state of a fresh `SessionManager`. -/
def Store.empty : Store := []

/-- Lookup, mirroring `sessions_.find(session_id)`. -/
def Store.find : Store → String → Option Session
  | [], _ => none
  | (k, v) :: rest, sid => if k = sid then some v else Store.find rest sid

/-- Insert-or-assign, mirroring `sessions_[session_id] = ...` and in-place
mutation of a stored session through a reference obtained from the map. -/
def Store.set : Store → String → Session → Store
  | [], sid, sess => [(sid, sess)]
  | (k, v) :: rest, sid, sess =>
    if k = sid then (k, sess) :: rest else (k, v) :: Store.set rest sid sess

/-- Removal, mirroring `sessions_.erase(session_id)`. -/
def Store.erase : Store → String → Store
  | [], _ => []
  | (k, v) :: rest, sid =>
    if k = sid then Store.erase rest sid else (k, v) :: Store.erase rest sid

/-- A JSON value, as far as the code inspects nlohmann::json values. -/
inductive Json where
  | null
  | jbool (b : Bool)
  | num (n : Int)
  | str (s : String)
  | arr (elems : List Json)
  | obj (fields : List (String × Json))

/-- Mirrors `nlohmann::json::contains(key)`: true exactly when the value is an
object having the key. -/
def Json.containsKey (j : Json) (key : String) : Bool :=
  match j with
  | .obj fields => fields.any (fun kv => kv.1 == key)
  | _ => false

/-- Mirrors `nlohmann::json::size()`: 0 for null, element count for arrays,
field count for objects, 1 for the remaining primitive kinds. -/
def Json.sizeJ (j : Json) : Nat :=
  match j with
  | .null => 0
  | .arr elems => elems.length
  | .obj fields => fields.length
  | _ => 1

/-- Mirrors `operator[](key)` on a non-const nlohmann::json: on an object it
returns the value of the key (inserting/yielding null for a missing key), on
null it converts to an object and yields null; on any other kind the access
throws a type error, modelled as `none`. -/
def Json.keyAccess (j : Json) (key : String) : Option Json :=
  match j with
  | .obj fields => some ((fields.lookup key).getD .null)
  | .null => some .null
  | _ => none

/-- Mirrors `operator[](index)` on nlohmann::json: valid on arrays; any other
kind throws a type error, modelled as `none`.  The code only indexes after a
positive `size()` check, so out-of-range array access does not arise there. -/
def Json.indexAccess (j : Json) (i : Nat) : Option Json :=
  match j with
  | .arr elems => elems.get? i
  | _ => none

/-- Mirrors `get<std::string>()`: succeeds only on a string value; any other
kind throws a type error, modelled as `none`. -/
def Json.asString (j : Json) : Option String :=
  match j with
  | .str s => some s
  | _ => none

/-- Outcome of `http_post` followed by `nlohmann::json::parse` inside
`LLMClient`: the transport layer threw (connection, DNS, timeout, malformed
HTTP), the payload failed to parse as JSON, or a parsed JSON value. -/
inductive UpstreamOutcome where
  | transportFail (msg : String)
  | parseFail (msg : String)
  | parsed (j : Json)

/-- The chain `json["choices"][0]["message"]["content"].get<std::string>()`
from `LLMClient::generate` (line 240); `none` means a json type exception was
thrown somewhere along the chain. -/
def extract_content (j : Json) : Option String :=
  (j.keyAccess "choices").bind (fun choices =>
    (choices.indexAccess 0).bind (fun c0 =>
      (c0.keyAccess "message").bind (fun m =>
        (m.keyAccess "content").bind Json.asString)))

/-- Stands in for the `what()` text of the nlohmann type exception raised when
the `choices[0].message.content` chain hits a value of the wrong kind. -/
def json_type_error_text : String := "type must be string"

namespace LLMClient

/-- Mirrors `LLMClient::generate` (`llm_client.cpp`, lines 201-252) as a
function of the upstream outcome for the request it built.  Transport errors
surface as `LLM generation failed: ...`, json exceptions (parse or type
errors) as `JSON parse error: ...`, and a parsed response missing a non-empty
`choices` raises `Invalid response from LLM server`, which the outer catch
rewraps as `LLM generation failed: ...`. -/
def generate (u : UpstreamOutcome) : Except String String :=
  match u with
  | .transportFail msg => .error ("LLM generation failed: " ++ msg)
  | .parseFail msg => .error ("JSON parse error: " ++ msg)
  | .parsed j =>
    if j.containsKey "choices" && decide (0 < ((j.keyAccess "choices").getD .null).sizeJ) then
      match extract_content j with
      | some content => .ok content
      | none => .error ("JSON parse error: " ++ json_type_error_text)
    else
      .error ("LLM generation failed: Invalid response from LLM server")

/-- Mirrors `LLMClient::test_connection` (`llm_client.cpp`, lines 178-199) as
a function of the probe outcome: any exception is caught and yields `false`;
a parsed response yields `true` exactly when `json.contains("choices")`. -/
def test_connection (probe : UpstreamOutcome) : Bool :=
  match probe with
  | .parsed j => j.containsKey "choices"
  | _ => false

/-- The `chunk_size = 10` constant of `LLMClient::generate_stream`. -/
def chunk_size : Nat := 10

/-- The slicing loop of `LLMClient::generate_stream` (lines 268-273):
`full_response.substr(i, chunk_size)` for `i = 0, 10, 20, ...`. -/
def chunkChars (s : List Char) : List (List Char) :=
  if h : s = [] then []
  else s.take chunk_size :: chunkChars (s.drop chunk_size)
termination_by s.length
decreasing_by
  simp only [List.length_drop]
  have hpos : 0 < s.length := List.length_pos.mpr h
  simp only [chunk_size]
  omega

/-- Mirrors `LLMClient::generate_stream` (`llm_client.cpp`, lines 254-277),
returning the list of strings passed to `on_chunk`, in delivery order: on
success the full response sliced into pieces of at most `chunk_size`
characters; on any exception a single in-band `Error: ...` chunk. -/
def generate_stream (u : UpstreamOutcome) : List String :=
  match generate u with
  | .ok full => (chunkChars full.toList).map String.mk
  | .error e => ["Error: " ++ e]

end LLMClient

/-- Concatenation of delivered chunks in delivery order, mirroring the
`full_response += chunk` collector of `process_message_stream` (line 409). -/
def collect_chunks (chunks : List String) : String :=
  chunks.foldl (fun acc c => acc ++ c) ""

namespace SessionManager

/-- Mirrors `SessionManager::get_or_create_session` (`llm_client.cpp`, lines
292-315): an existing session gets `last_access` refreshed; otherwise a new
session is created whose dialog is seeded with the system prompt.  Returns
the session (the referent of the returned reference) and the updated map.
`now` stands for `std::chrono::system_clock::now().time_since_epoch().count()`. -/
def get_or_create_session (st : Store) (session_id system_prompt : String)
    (now : Int) : Session × Store :=
  match st.find session_id with
  | some sess =>
    let sess1 : Session := { sess with last_access := now }
    (sess1, st.set session_id sess1)
  | none =>
    let sess : Session :=
      { dialog := [{ role := "system", content := system_prompt }]
        created_at := now
        last_access := now
        message_count := 0 }
    (sess, st.set session_id sess)

/-- Mirrors `SessionManager::trim_history` (`llm_client.cpp`, lines 317-336).
`max_history_messages` is the `int` field of the manager; the `int` index
`start = dialog.size() - max_keep` is converted to `size_t` by the loop, which
for a negative value (possible only when `max_history_messages < 0`) wraps to
a huge index and keeps nothing after the system message — reproduced here by
`Int.toNat` of the dropped-prefix length. -/
def trim_history (max_history_messages : Int) (dialog : List ChatMessage) :
    List ChatMessage :=
  if 1 < dialog.length then
    let non_system : Int := (dialog.length : Int) - 1
    let max_keep : Int := max_history_messages * 2
    if non_system > max_keep then
      match dialog with
      | [] => []
      | first :: _ => first :: dialog.drop (((dialog.length : Int) - max_keep).toNat)
    else dialog
  else dialog

/-- Locked phase A of `process_message` / `process_message_stream` (lines
349-362 and 391-404): get-or-create the session, append the user message,
bump `message_count`, trim, store the mutated session, and snapshot its
dialog for the upcoming inference call. -/
def phaseA (max_history_messages : Int) (st : Store)
    (session_id system_prompt user_message : String) (now : Int) :
    List ChatMessage × Store :=
  let gcs := get_or_create_session st session_id system_prompt now
  let sess1 : Session :=
    { gcs.1 with
      dialog := gcs.1.dialog ++ [{ role := "user", content := user_message }]
      message_count := gcs.1.message_count + 1 }
  let sess2 : Session := { sess1 with dialog := trim_history max_history_messages sess1.dialog }
  (sess2.dialog, gcs.2.set session_id sess2)

/-- Locked phase B of `process_message` / `process_message_stream` (lines
368-374 and 417-423): look the session up again and, only if it still exists,
append the assistant message; a missing session is left missing. -/
def phaseB (st : Store) (session_id response : String) : Store :=
  match st.find session_id with
  | some sess =>
    st.set session_id
      { sess with dialog := sess.dialog ++ [{ role := "assistant", content := response }] }
  | none => st

/-- Mirrors `SessionManager::process_message` (`llm_client.cpp`, lines
338-377), with the concurrent environment abstracted as a store transformer
`interfere` applied during the unlocked network call (other threads may
mutate the map then; the purely sequential behaviour is `interfere = id`).
`U` maps the snapshotted dialog to the upstream outcome of the request built
by `LLMClient::generate` for it (generation parameters, being forwarded
unchanged, are absorbed into `U`).  A generation exception propagates to the
caller as `.error`, skipping phase B. -/
def process_message_env (U : List ChatMessage → UpstreamOutcome)
    (max_history_messages : Int) (interfere : Store → Store) (st : Store)
    (session_id system_prompt user_message : String) (now : Int) :
    Except String String × Store :=
  let a := phaseA max_history_messages st session_id system_prompt user_message now
  let st2 := interfere a.2
  match LLMClient.generate (U a.1) with
  | .error e => (.error e, st2)
  | .ok response => (.ok response, phaseB st2 session_id response)

/-- `SessionManager::process_message` run without concurrent interference. -/
def process_message (U : List ChatMessage → UpstreamOutcome)
    (max_history_messages : Int) (st : Store)
    (session_id system_prompt user_message : String) (now : Int) :
    Except String String × Store :=
  process_message_env U max_history_messages id st session_id system_prompt user_message now

/-- Mirrors `SessionManager::process_message_stream` (`llm_client.cpp`, lines
379-424): same phase A, then `generate_stream` with a collector that forwards
each chunk to the caller while accumulating `full_response`, then phase B
appending the accumulated text (`generate_stream` never throws, so phase B
always runs).  Returns the chunks delivered to `on_chunk` and the new store. -/
def process_message_stream (U : List ChatMessage → UpstreamOutcome)
    (max_history_messages : Int) (st : Store)
    (session_id system_prompt user_message : String) (now : Int) :
    List String × Store :=
  let a := phaseA max_history_messages st session_id system_prompt user_message now
  let chunks := LLMClient.generate_stream (U a.1)
  (chunks, phaseB a.2 session_id (collect_chunks chunks))

/-- Mirrors `SessionManager::get_session_history` (`llm_client.cpp`, lines
426-434); a pure read, the store is unchanged. -/
def get_session_history (st : Store) (session_id : String) :
    Option (List ChatMessage) :=
  (st.find session_id).map Session.dialog

/-- Mirrors `SessionManager::clear_session` (`llm_client.cpp`, lines 436-440). -/
def clear_session (st : Store) (session_id : String) : Store :=
  st.erase session_id

end SessionManager

/-- A well-formed chat-completion success payload: the JSON shape
`choices[0].message.content = s` expected by `LLMClient::generate`. -/
def okJson (s : String) : Json :=
  .obj [("choices", .arr [.obj [("message", .obj [("content", .str s)])]])]

/-- An always-succeeding deterministic backend built from a response function:
every request yields a parsed well-formed payload carrying `B messages`. -/
def okOutcome (B : List ChatMessage → String) :
    List ChatMessage → UpstreamOutcome :=
  fun msgs => .parsed (okJson (B msgs))

/-- A concrete always-succeeding backend that echoes the content of the last
message of the request, prefixed with `re:`. -/
def echoOutcome : List ChatMessage → UpstreamOutcome :=
  okOutcome (fun msgs => "re:" ++ ((msgs.getLast?.map ChatMessage.content).getD ""))

/-- Sequential complete calls to `process_message` on one session id, one call
per user message, threading the store. -/
def run_turns (U : List ChatMessage → UpstreamOutcome) (k : Int)
    (sid sp : String) (userMsgs : List String) (st : Store) : Store :=
  match userMsgs with
  | [] => st
  | m :: rest =>
    run_turns U k sid sp rest (SessionManager.process_message U k st sid sp m 0).2

/-- Number of messages of a dialog whose role is not `system`. -/
def nonSystemCount (d : List ChatMessage) : Nat :=
  (d.filter (fun m => m.role != "system")).length

/-- A dialog as maintained by the SessionManager: it starts with the system
directive and no later entry carries the system role. -/
def GoodDialog (d : List ChatMessage) : Prop :=
  ∃ c t, d = { role := "system", content := c } :: t ∧ ∀ m ∈ t, m.role ≠ "system"

/-- Every session stored in the map has a `GoodDialog`. -/
def StoreInv (st : Store) : Prop :=
  ∀ sid sess, st.find sid = some sess → GoodDialog sess.dialog

/-- The session stores reachable from the empty map by sequences of the four
public SessionManager operations, run sequentially (`get_session_history` is
a pure read and does not change the store, so it needs no constructor). -/
inductive Reachable (k : Int) : Store → Prop where
  | empty : Reachable k Store.empty
  | pm (U : List ChatMessage → UpstreamOutcome) (sid sp um : String) (now : Int)
      {st : Store} (h : Reachable k st) :
      Reachable k (SessionManager.process_message U k st sid sp um now).2
  | pms (U : List ChatMessage → UpstreamOutcome) (sid sp um : String) (now : Int)
      {st : Store} (h : Reachable k st) :
      Reachable k (SessionManager.process_message_stream U k st sid sp um now).2
  | clear (sid : String) {st : Store} (h : Reachable k st) :
      Reachable k (SessionManager.clear_session st sid)

/-- Events on `sessions_mutex_` and the upstream network call, as issued by
one thread executing a SessionManager entry point. -/
inductive LockEv where
  | acquire
  | release
  | netStart
  | netEnd
deriving DecidableEq, Repr

/-- Event trace of `SessionManager::process_message` on `sessions_mutex_`:
`lock_guard` at line 350, the nested `lock_guard` inside
`get_or_create_session` at line 296 (entered from line 351) with its release
at the end of that function, release of the outer guard at line 362, the
network call of line 365, then the phase-B guard of lines 369-374. -/
def process_message_lock_trace : List LockEv :=
  [.acquire, .acquire, .release, .release, .netStart, .netEnd, .acquire, .release]

/-- Event trace of `SessionManager::process_message_stream` on
`sessions_mutex_`: `lock_guard` at line 392, the nested guard inside
`get_or_create_session` (entered from line 393), release at line 404, the
network call of line 414, then the phase-B guard of lines 418-423. -/
def process_message_stream_lock_trace : List LockEv :=
  [.acquire, .acquire, .release, .release, .netStart, .netEnd, .acquire, .release]

/-- Single-thread execution against a non-recursive `std::mutex` such as
`sessions_mutex_`: acquiring while already holding is the undefined recursive
self-lock (in practice a deadlock).  Returns `true` when the trace performs
such a recursive acquisition. -/
def selfDeadlocks : Bool → List LockEv → Bool
  | _, [] => false
  | held, .acquire :: rest => held || selfDeadlocks true rest
  | _, .release :: rest => selfDeadlocks false rest
  | held, .netStart :: rest => selfDeadlocks held rest
  | held, .netEnd :: rest => selfDeadlocks held rest

/-- Whether the thread reaches its network call under non-recursive mutex
semantics: a recursive acquisition blocks the thread, so everything after it
is unreachable. -/
def reachesNetStart : Bool → List LockEv → Bool
  | _, [] => false
  | held, .acquire :: rest => if held then false else reachesNetStart true rest
  | _, .release :: rest => reachesNetStart false rest
  | _, .netStart :: _ => true
  | held, .netEnd :: rest => reachesNetStart held rest

/-- Lock nesting depth at the moment the network call starts, under balanced
counting semantics (as with a recursive mutex): `some 0` means the mutex is
not held at any point during the network call. -/
def lockDepthAtNet : Int → List LockEv → Option Int
  | _, [] => none
  | d, .acquire :: rest => lockDepthAtNet (d + 1) rest
  | d, .release :: rest => lockDepthAtNet (d - 1) rest
  | d, .netStart :: _ => some d
  | d, .netEnd :: rest => lockDepthAtNet d rest

/-! ## Store lemmas -/

theorem Store.find_set_self (st : Store) (sid : String) (sess : Session) :
    (st.set sid sess).find sid = some sess := by
  induction st with
  | nil => simp [Store.set, Store.find]
  | cons kv rest ih =>
    obtain ⟨k, v⟩ := kv
    by_cases hk : k = sid
    · simp [Store.set, Store.find, hk]
    · simp [Store.set, Store.find, hk, ih]

theorem Store.find_set_ne (st : Store) {sid sid' : String} (h : sid' ≠ sid)
    (sess : Session) : (st.set sid sess).find sid' = st.find sid' := by
  induction st with
  | nil => simp [Store.set, Store.find, Ne.symm h]
  | cons kv rest ih =>
    obtain ⟨k, v⟩ := kv
    by_cases hk : k = sid
    · subst hk
      simp [Store.set, Store.find, Ne.symm h]
    · simp only [Store.set, Store.find, if_neg hk]
      by_cases hk' : k = sid'
      · simp [hk']
      · simp [hk', ih]

theorem Store.find_erase_self (st : Store) (sid : String) :
    (st.erase sid).find sid = none := by
  induction st with
  | nil => simp [Store.erase, Store.find]
  | cons kv rest ih =>
    obtain ⟨k, v⟩ := kv
    by_cases hk : k = sid
    · simp [Store.erase, hk, ih]
    · simp [Store.erase, Store.find, hk, ih]

theorem Store.find_erase_ne (st : Store) {sid sid' : String} (h : sid' ≠ sid) :
    (st.erase sid).find sid' = st.find sid' := by
  induction st with
  | nil => simp [Store.erase]
  | cons kv rest ih =>
    obtain ⟨k, v⟩ := kv
    by_cases hk : k = sid
    · subst hk
      simp [Store.erase, Store.find, Ne.symm h, ih]
    · simp only [Store.erase, if_neg hk]
      by_cases hk' : k = sid'
      · simp [Store.find, hk']
      · simp [Store.find, hk', ih]

/-! ## Trimming lemmas -/

namespace SessionManager

theorem trim_history_head? (k : Int) (d : List ChatMessage) :
    (trim_history k d).head? = d.head? := by
  cases d with
  | nil => simp [trim_history]
  | cons m t =>
    simp only [trim_history]
    split_ifs <;> simp

theorem trim_history_tail_suffix (k : Int) (d : List ChatMessage) :
    (trim_history k d).tail <:+ d.tail := by
  cases d with
  | nil => simp [trim_history]
  | cons m t =>
    simp only [trim_history]
    split_ifs with h1 h2
    · have hlen : (1 : Int) < (t.length : Int) + 1 := by exact_mod_cast by simpa using h1
      have hidx : 1 ≤ (((m :: t).length : Int) - k * 2).toNat := by
        simp only [List.length_cons] at h2 ⊢
        omega
      obtain ⟨j, hj⟩ : ∃ j, (((m :: t).length : Int) - k * 2).toNat = j + 1 :=
        ⟨(((m :: t).length : Int) - k * 2).toNat - 1, by omega⟩
      simp only [List.tail_cons, hj, List.drop_succ_cons]
      exact List.drop_suffix j t
    · exact List.suffix_refl _
    · exact List.suffix_refl _

end SessionManager

/-! ## Chunking lemmas -/

theorem chunkChars_flatten (s : List Char) : (LLMClient.chunkChars s).flatten = s := by
  suffices H : ∀ n (s : List Char), s.length ≤ n →
      (LLMClient.chunkChars s).flatten = s by
    exact H s.length s le_rfl
  intro n
  induction n with
  | zero =>
    intro s hs
    have hnil : s = [] := List.eq_nil_of_length_eq_zero (Nat.le_zero.mp hs)
    subst hnil
    simp [LLMClient.chunkChars]
  | succ n ih =>
    intro s hs
    by_cases h : s = []
    · subst h; simp [LLMClient.chunkChars]
    · rw [LLMClient.chunkChars, dif_neg h]
      have hlen : (s.drop LLMClient.chunk_size).length ≤ n := by
        have hpos : 0 < s.length := List.length_pos.mpr h
        simp only [List.length_drop, LLMClient.chunk_size]
        omega
      simp [List.flatten_cons, ih _ hlen, List.take_append_drop]

theorem String.mk_append_mk (a b : List Char) :
    String.mk a ++ String.mk b = String.mk (a ++ b) := rfl

theorem foldl_append_map_mk (css : List (List Char)) (acc : String) :
    List.foldl (fun a c => a ++ c) acc (css.map String.mk) =
      acc ++ String.mk css.flatten := by
  induction css generalizing acc with
  | nil =>
    cases acc
    simp [String.mk_append_mk]
  | cons c rest ih =>
    cases acc with
    | mk acl =>
      simp only [List.map_cons, List.foldl_cons, List.flatten_cons, ih,
        String.mk_append_mk, List.append_assoc]

theorem collect_chunks_of_chunkChars (s : String) :
    collect_chunks ((LLMClient.chunkChars s.toList).map String.mk) = s := by
  cases s with
  | mk l =>
    simp [collect_chunks, foldl_append_map_mk, chunkChars_flatten]

/-! ## Dialog and store invariant lemmas -/

theorem GoodDialog.ne_nil {d : List ChatMessage} (h : GoodDialog d) : d ≠ [] := by
  obtain ⟨c, t, rfl, -⟩ := h
  simp

theorem GoodDialog.head?_role {d : List ChatMessage} (h : GoodDialog d) :
    d.head?.map ChatMessage.role = some "system" := by
  obtain ⟨c, t, rfl, -⟩ := h
  rfl

theorem GoodDialog.append {d : List ChatMessage} (h : GoodDialog d)
    {r c : String} (hr : r ≠ "system") :
    GoodDialog (d ++ [{ role := r, content := c }]) := by
  obtain ⟨c0, t, rfl, ht⟩ := h
  refine ⟨c0, t ++ [{ role := r, content := c }], by simp, ?_⟩
  intro m hm
  rcases List.mem_append.mp hm with hm | hm
  · exact ht m hm
  · simp only [List.mem_singleton] at hm
    subst hm
    simpa using hr

theorem GoodDialog.trim (k : Int) {d : List ChatMessage} (h : GoodDialog d) :
    GoodDialog (SessionManager.trim_history k d) := by
  obtain ⟨c, t, rfl, ht⟩ := h
  have hh := SessionManager.trim_history_head? k ({ role := "system", content := c } :: t)
  have hs := SessionManager.trim_history_tail_suffix k ({ role := "system", content := c } :: t)
  simp only [List.head?_cons] at hh
  simp only [List.tail_cons] at hs
  have heq := List.cons_head?_tail (Option.mem_def.mpr hh)
  exact ⟨c, _, heq.symm, fun m hm => ht m (hs.subset hm)⟩

theorem StoreInv.empty : StoreInv Store.empty := by
  intro sid sess h
  simp [Store.find, Store.empty] at h

theorem StoreInv.set {st : Store} (hinv : StoreInv st) {sid : String}
    {sess : Session} (hgood : GoodDialog sess.dialog) :
    StoreInv (st.set sid sess) := by
  intro sid' sess' hfind
  by_cases h : sid' = sid
  · subst h
    rw [Store.find_set_self] at hfind
    cases hfind
    exact hgood
  · rw [Store.find_set_ne st h] at hfind
    exact hinv sid' sess' hfind

theorem StoreInv.erase {st : Store} (hinv : StoreInv st) (sid : String) :
    StoreInv (st.erase sid) := by
  intro sid' sess' hfind
  by_cases h : sid' = sid
  · subst h
    rw [Store.find_erase_self] at hfind
    cases hfind
  · rw [Store.find_erase_ne st h] at hfind
    exact hinv _ _ hfind

namespace SessionManager

theorem get_or_create_session_inv {st : Store} (hinv : StoreInv st)
    (sid sp : String) (now : Int) :
    GoodDialog (get_or_create_session st sid sp now).1.dialog ∧
    StoreInv (get_or_create_session st sid sp now).2 := by
  cases hfind : st.find sid with
  | some sess =>
    have hgood : GoodDialog sess.dialog := hinv _ _ hfind
    simp only [get_or_create_session, hfind]
    exact ⟨hgood, hinv.set hgood⟩
  | none =>
    have hgood : GoodDialog [ChatMessage.mk "system" sp] := ⟨sp, [], rfl, by simp⟩
    simp only [get_or_create_session, hfind]
    exact ⟨hgood, hinv.set hgood⟩

theorem phaseA_inv {st : Store} (hinv : StoreInv st) (k : Int)
    (sid sp um : String) (now : Int) :
    GoodDialog (phaseA k st sid sp um now).1 ∧
    StoreInv (phaseA k st sid sp um now).2 := by
  obtain ⟨hgood, hinv2⟩ := get_or_create_session_inv hinv sid sp now
  have hsnap : GoodDialog
      (trim_history k ((get_or_create_session st sid sp now).1.dialog ++
        [{ role := "user", content := um }])) :=
    (hgood.append (by decide)).trim k
  exact ⟨hsnap, hinv2.set hsnap⟩

theorem phaseB_inv {st : Store} (hinv : StoreInv st) (sid resp : String) :
    StoreInv (phaseB st sid resp) := by
  cases hfind : st.find sid with
  | some sess =>
    simp only [phaseB, hfind]
    exact hinv.set ((hinv _ _ hfind).append (by decide))
  | none => simpa only [phaseB, hfind] using hinv

theorem process_message_env_inv {st : Store} (hinv : StoreInv st)
    (U : List ChatMessage → UpstreamOutcome) (k : Int)
    (interfere : Store → Store)
    (hpres : ∀ st', StoreInv st' → StoreInv (interfere st'))
    (sid sp um : String) (now : Int) :
    StoreInv (process_message_env U k interfere st sid sp um now).2 := by
  obtain ⟨-, hi⟩ := phaseA_inv hinv k sid sp um now
  have hi2 := hpres _ hi
  cases hgen : LLMClient.generate (U (phaseA k st sid sp um now).1) with
  | error e => simpa only [process_message_env, hgen] using hi2
  | ok r =>
    simp only [process_message_env, hgen]
    exact phaseB_inv hi2 sid r

theorem process_message_inv {st : Store} (hinv : StoreInv st)
    (U : List ChatMessage → UpstreamOutcome) (k : Int)
    (sid sp um : String) (now : Int) :
    StoreInv (process_message U k st sid sp um now).2 :=
  process_message_env_inv hinv U k id (fun _ h => h) sid sp um now

theorem process_message_stream_inv {st : Store} (hinv : StoreInv st)
    (U : List ChatMessage → UpstreamOutcome) (k : Int)
    (sid sp um : String) (now : Int) :
    StoreInv (process_message_stream U k st sid sp um now).2 := by
  obtain ⟨-, hi⟩ := phaseA_inv hinv k sid sp um now
  exact phaseB_inv hi sid _

end SessionManager

theorem Reachable.storeInv {k : Int} {st : Store} (h : Reachable k st) :
    StoreInv st := by
  induction h with
  | empty => exact StoreInv.empty
  | pm U sid sp um now h ih => exact SessionManager.process_message_inv ih U k sid sp um now
  | pms U sid sp um now h ih =>
    exact SessionManager.process_message_stream_inv ih U k sid sp um now
  | clear sid h ih => exact ih.erase sid

theorem head?_append_left {α} (l l' : List α) (h : l ≠ []) :
    (l ++ l').head? = l.head? := by
  cases l with
  | nil => exact absurd rfl h
  | cons a t => rfl

namespace SessionManager

theorem phaseA_find_self (k : Int) (st : Store) (sid sp um : String) (now : Int) :
    ∃ s, (phaseA k st sid sp um now).2.find sid = some s ∧
      s.dialog = (phaseA k st sid sp um now).1 := by
  simp only [phaseA]
  exact ⟨_, Store.find_set_self _ _ _, rfl⟩

theorem phaseA_snapshot_of_found {st : Store} {sid : String} {sess : Session}
    (hfind : st.find sid = some sess) (k : Int) (sp um : String) (now : Int) :
    (phaseA k st sid sp um now).1 =
      trim_history k (sess.dialog ++ [{ role := "user", content := um }]) := by
  simp only [phaseA, get_or_create_session, hfind]

theorem phaseA_snapshot_head? (k : Int) (st : Store) (sid sp um : String)
    (now : Int) (sess : Session) (hfind : st.find sid = some sess)
    (hne : sess.dialog ≠ []) :
    (phaseA k st sid sp um now).1.head? = sess.dialog.head? := by
  simp only [phaseA, get_or_create_session, hfind]
  rw [trim_history_head?]
  exact head?_append_left _ _ hne

end SessionManager

theorem collect_chunks_singleton (s : String) : collect_chunks [s] = s := by
  cases s with
  | mk l => rfl

namespace SessionManager

theorem mem_trim_history_of_mem_drop_two {k : Int} (hk : 1 ≤ k)
    {d : List ChatMessage} {x : ChatMessage} (hx : x ∈ d.drop (d.length - 2)) :
    x ∈ trim_history k d := by
  by_cases h1 : 1 < d.length
  · by_cases h2 : (d.length : Int) - 1 > k * 2
    · cases d with
      | nil => simp at h1
      | cons m t =>
        have htrim : trim_history k (m :: t) =
            m :: (m :: t).drop ((((m :: t).length : Int) - k * 2).toNat) := by
          simp only [trim_history, if_pos h1, if_pos h2]
        rw [htrim]
        have hle : ((((m :: t).length : Int) - k * 2)).toNat ≤ (m :: t).length - 2 := by
          simp only [List.length_cons] at h2 ⊢
          omega
        have hsplit : (m :: t).drop ((m :: t).length - 2) =
            ((m :: t).drop ((((m :: t).length : Int) - k * 2).toNat)).drop
              (((m :: t).length - 2) - (((m :: t).length : Int) - k * 2).toNat) := by
          rw [List.drop_drop]
          congr 1
          omega
        rw [hsplit] at hx
        exact List.mem_cons_of_mem _ (List.mem_of_mem_drop hx)
    · have htrim : trim_history k d = d := by
        simp only [trim_history, if_pos h1, if_neg h2]
      rw [htrim]
      exact List.mem_of_mem_drop hx
  · have htrim : trim_history k d = d := by
      simp only [trim_history, if_neg h1]
    rw [htrim]
    exact List.mem_of_mem_drop hx

end SessionManager

/-! ## One-turn evaluation lemmas for an always-succeeding backend

Each lemma evaluates one complete `process_message` call on a concrete store
shape: the assistant response string is existentially bound because it is the
(opaque) backend function applied to the snapshot of that turn. -/

theorem pm_okOutcome_first (B : List ChatMessage → String) (sp um : String) (now : Int) :
    ∃ r, (SessionManager.process_message (okOutcome B) 2 Store.empty "s" sp um now).2 =
      [("s", Session.mk [ChatMessage.mk "system" sp, ChatMessage.mk "user" um,
        ChatMessage.mk "assistant" r] now now 1)] := ⟨_, rfl⟩

theorem pm_okOutcome_step3 (B : List ChatMessage → String) (sp um : String) (now : Int)
    (m0 m1 m2 : ChatMessage) (ca la mc : Int) :
    ∃ r, (SessionManager.process_message (okOutcome B) 2
        [("s", Session.mk [m0, m1, m2] ca la mc)] "s" sp um now).2 =
      [("s", Session.mk [m0, m1, m2, ChatMessage.mk "user" um,
        ChatMessage.mk "assistant" r] ca now (mc + 1))] := ⟨_, rfl⟩

theorem pm_okOutcome_step5 (B : List ChatMessage → String) (sp um : String) (now : Int)
    (m0 m1 m2 m3 m4 : ChatMessage) (ca la mc : Int) :
    ∃ r, (SessionManager.process_message (okOutcome B) 2
        [("s", Session.mk [m0, m1, m2, m3, m4] ca la mc)] "s" sp um now).2 =
      [("s", Session.mk [m0, m2, m3, m4, ChatMessage.mk "user" um,
        ChatMessage.mk "assistant" r] ca now (mc + 1))] := ⟨_, rfl⟩

theorem pm_okOutcome_step6 (B : List ChatMessage → String) (sp um : String) (now : Int)
    (m0 m1 m2 m3 m4 m5 : ChatMessage) (ca la mc : Int) :
    ∃ r, (SessionManager.process_message (okOutcome B) 2
        [("s", Session.mk [m0, m1, m2, m3, m4, m5] ca la mc)] "s" sp um now).2 =
      [("s", Session.mk [m0, m3, m4, m5, ChatMessage.mk "user" um,
        ChatMessage.mk "assistant" r] ca now (mc + 1))] := ⟨_, rfl⟩

/-! ## Claim theorems -/

/-- C1 counterexample: with `maxHistory = 2` and an always-succeeding echo
backend, after 10 sequential complete `process_message` calls on one session,
the non-system tail of the dialog has 5 entries, not 4 as the claim states:
trimming runs after the user message is appended but before the assistant
reply is appended, so the steady-state tail is `2 x maxHistory + 1`. -/
theorem claim_C1_counterexample :
    (((run_turns echoOutcome 2 "s" "P"
        ["u1","u2","u3","u4","u5","u6","u7","u8","u9","u10"] Store.empty).find "s").map
      (fun sess => sess.dialog.tail.length) = some 5) ∧
    ¬ (((run_turns echoOutcome 2 "s" "P"
        ["u1","u2","u3","u4","u5","u6","u7","u8","u9","u10"] Store.empty).find "s").map
      (fun sess => sess.dialog.tail.length) = some 4) := by
  constructor <;> decide

/-- C1 amended: with `maxHistory = 2` and any always-succeeding deterministic
backend, after 10 sequential complete `process_message` calls on one session
the non-system tail of the dialog has exactly 5 entries, the 5 most recent
messages: an assistant reply, then the user and assistant messages of turns
9 and 10 (role pattern assistant/user/assistant/user/assistant, with the two
user entries being the turn-9 and turn-10 user messages). -/
theorem claim_C1_amended (B : List ChatMessage → String) :
    ((run_turns (okOutcome B) 2 "s" "P"
        ["u1","u2","u3","u4","u5","u6","u7","u8","u9","u10"] Store.empty).find "s").map
      (fun sess => sess.dialog.map ChatMessage.role) =
      some ["system", "assistant", "user", "assistant", "user", "assistant"] ∧
    ((run_turns (okOutcome B) 2 "s" "P"
        ["u1","u2","u3","u4","u5","u6","u7","u8","u9","u10"] Store.empty).find "s").map
      (fun sess => (sess.dialog.map ChatMessage.content).get? 2) = some (some "u9") ∧
    ((run_turns (okOutcome B) 2 "s" "P"
        ["u1","u2","u3","u4","u5","u6","u7","u8","u9","u10"] Store.empty).find "s").map
      (fun sess => (sess.dialog.map ChatMessage.content).get? 4) = some (some "u10") := by
  obtain ⟨a1, h1⟩ := pm_okOutcome_first B "P" "u1" 0
  obtain ⟨a2, h2⟩ := pm_okOutcome_step3 B "P" "u2" 0
    (ChatMessage.mk "system" "P") (ChatMessage.mk "user" "u1")
    (ChatMessage.mk "assistant" a1) 0 0 1
  obtain ⟨a3, h3⟩ := pm_okOutcome_step5 B "P" "u3" 0
    (ChatMessage.mk "system" "P") (ChatMessage.mk "user" "u1")
    (ChatMessage.mk "assistant" a1) (ChatMessage.mk "user" "u2")
    (ChatMessage.mk "assistant" a2) 0 0 (1 + 1)
  obtain ⟨a4, h4⟩ := pm_okOutcome_step6 B "P" "u4" 0
    (ChatMessage.mk "system" "P") (ChatMessage.mk "assistant" a1)
    (ChatMessage.mk "user" "u2") (ChatMessage.mk "assistant" a2)
    (ChatMessage.mk "user" "u3") (ChatMessage.mk "assistant" a3) 0 0 ((1 + 1) + 1)
  obtain ⟨a5, h5⟩ := pm_okOutcome_step6 B "P" "u5" 0
    (ChatMessage.mk "system" "P") (ChatMessage.mk "assistant" a2)
    (ChatMessage.mk "user" "u3") (ChatMessage.mk "assistant" a3)
    (ChatMessage.mk "user" "u4") (ChatMessage.mk "assistant" a4) 0 0 (((1 + 1) + 1) + 1)
  obtain ⟨a6, h6⟩ := pm_okOutcome_step6 B "P" "u6" 0
    (ChatMessage.mk "system" "P") (ChatMessage.mk "assistant" a3)
    (ChatMessage.mk "user" "u4") (ChatMessage.mk "assistant" a4)
    (ChatMessage.mk "user" "u5") (ChatMessage.mk "assistant" a5) 0 0
    ((((1 + 1) + 1) + 1) + 1)
  obtain ⟨a7, h7⟩ := pm_okOutcome_step6 B "P" "u7" 0
    (ChatMessage.mk "system" "P") (ChatMessage.mk "assistant" a4)
    (ChatMessage.mk "user" "u5") (ChatMessage.mk "assistant" a5)
    (ChatMessage.mk "user" "u6") (ChatMessage.mk "assistant" a6) 0 0
    (((((1 + 1) + 1) + 1) + 1) + 1)
  obtain ⟨a8, h8⟩ := pm_okOutcome_step6 B "P" "u8" 0
    (ChatMessage.mk "system" "P") (ChatMessage.mk "assistant" a5)
    (ChatMessage.mk "user" "u6") (ChatMessage.mk "assistant" a6)
    (ChatMessage.mk "user" "u7") (ChatMessage.mk "assistant" a7) 0 0
    ((((((1 + 1) + 1) + 1) + 1) + 1) + 1)
  obtain ⟨a9, h9⟩ := pm_okOutcome_step6 B "P" "u9" 0
    (ChatMessage.mk "system" "P") (ChatMessage.mk "assistant" a6)
    (ChatMessage.mk "user" "u7") (ChatMessage.mk "assistant" a7)
    (ChatMessage.mk "user" "u8") (ChatMessage.mk "assistant" a8) 0 0
    (((((((1 + 1) + 1) + 1) + 1) + 1) + 1) + 1)
  obtain ⟨a10, h10⟩ := pm_okOutcome_step6 B "P" "u10" 0
    (ChatMessage.mk "system" "P") (ChatMessage.mk "assistant" a7)
    (ChatMessage.mk "user" "u8") (ChatMessage.mk "assistant" a8)
    (ChatMessage.mk "user" "u9") (ChatMessage.mk "assistant" a9) 0 0
    ((((((((1 + 1) + 1) + 1) + 1) + 1) + 1) + 1) + 1)
  have hrun : run_turns (okOutcome B) 2 "s" "P"
      ["u1","u2","u3","u4","u5","u6","u7","u8","u9","u10"] Store.empty =
      [("s", Session.mk [ChatMessage.mk "system" "P", ChatMessage.mk "assistant" a8,
        ChatMessage.mk "user" "u9", ChatMessage.mk "assistant" a9,
        ChatMessage.mk "user" "u10", ChatMessage.mk "assistant" a10] 0 0
        (((((((((1 + 1) + 1) + 1) + 1) + 1) + 1) + 1) + 1) + 1))] := by
    simp only [run_turns]
    rw [h1, h2, h3, h4, h5, h6, h7, h8, h9, h10]
  rw [hrun]
  exact ⟨rfl, rfl, rfl⟩

/-- C3: for every reachable state of the session store and every stored
session, a non-empty dialog has a system message at position 0, and every
trimming pass keeps the position-0 entry and discards only entries after it
(the trimmed tail is a suffix of the original tail). -/
theorem claim_C3 (k : Int) (st : Store) (h : Reachable k st) :
    (∀ sid sess, st.find sid = some sess →
      sess.dialog ≠ [] ∧ sess.dialog.head?.map ChatMessage.role = some "system") ∧
    (∀ d : List ChatMessage,
      (SessionManager.trim_history k d).head? = d.head? ∧
      (SessionManager.trim_history k d).tail <:+ d.tail) := by
  constructor
  · intro sid sess hfind
    have hg := h.storeInv sid sess hfind
    exact ⟨hg.ne_nil, hg.head?_role⟩
  · intro d
    exact ⟨SessionManager.trim_history_head? k d, SessionManager.trim_history_tail_suffix k d⟩

/-- Witness for C3 at the store reached by one `process_message` call from
the empty store. -/
theorem claim_C3_witness :
    (∀ sid sess,
        (SessionManager.process_message echoOutcome 2 Store.empty "s" "P" "hi" 0).2.find sid =
          some sess →
        sess.dialog ≠ [] ∧ sess.dialog.head?.map ChatMessage.role = some "system") ∧
    (∀ d : List ChatMessage,
      (SessionManager.trim_history 2 d).head? = d.head? ∧
      (SessionManager.trim_history 2 d).tail <:+ d.tail) :=
  claim_C3 2 _ (Reachable.pm echoOutcome "s" "P" "hi" 0 Reachable.empty)

/-- C4 counterexample: for a reachable backend whose response parses as JSON
with an empty `choices` array, `test_connection` returns `true`, not `false`
as the claim states — the code checks only key presence, not non-emptiness. -/
theorem claim_C4_counterexample :
    LLMClient.test_connection
      (UpstreamOutcome.parsed (Json.obj [("choices", Json.arr [])])) = true := rfl

/-- C4 amended: `test_connection` returns `false` whenever the backend is
unreachable or the response fails to parse, and returns `true` exactly when
the parsed response contains a `choices` key — whether or not the `choices`
array is empty. -/
theorem claim_C4_amended (u : UpstreamOutcome) :
    LLMClient.test_connection u = true ↔
      ∃ j, u = UpstreamOutcome.parsed j ∧ j.containsKey "choices" = true := by
  cases u with
  | transportFail m => simp [LLMClient.test_connection]
  | parseFail m => simp [LLMClient.test_connection]
  | parsed j =>
    simp only [LLMClient.test_connection]
    constructor
    · intro hc
      exact ⟨j, rfl, hc⟩
    · rintro ⟨j', hj, hc⟩
      cases hj
      exact hc

/-- C5: against the balanced-counting reading of the lock events (first
conjunct), `sessions_mutex_` is at depth 0 when the network call starts, as
the claim intends; but under the actual semantics of the non-recursive
`std::mutex` (remaining conjuncts), both entry points acquire the mutex
recursively — `process_message` locks at line 350 and `get_or_create_session`
locks again at line 296 — which is undefined behaviour that blocks the thread
before the network call ever starts. -/
theorem claim_C5_code_bug :
    (lockDepthAtNet 0 process_message_lock_trace = some 0 ∧
     lockDepthAtNet 0 process_message_stream_lock_trace = some 0) ∧
    (selfDeadlocks false process_message_lock_trace = true ∧
     selfDeadlocks false process_message_stream_lock_trace = true ∧
     reachesNetStart false process_message_lock_trace = false ∧
     reachesNetStart false process_message_stream_lock_trace = false) := by
  decide

/-- C8: whenever the underlying generation fails, `generate_stream` delivers
exactly one chunk, the in-band error marker `Error: ...`, and raises nothing
(its return type already rules out raising). -/
theorem claim_C8 (u : UpstreamOutcome) (e : String)
    (h : LLMClient.generate u = .error e) :
    LLMClient.generate_stream u = ["Error: " ++ e] ∧
    (LLMClient.generate_stream u).length = 1 := by
  simp [LLMClient.generate_stream, h]

/-- Witness for C8 at a concrete transport failure. -/
theorem claim_C8_witness :
    LLMClient.generate_stream (UpstreamOutcome.transportFail "Failed to connect") =
      ["Error: " ++ "LLM generation failed: Failed to connect"] ∧
    (LLMClient.generate_stream
      (UpstreamOutcome.transportFail "Failed to connect")).length = 1 :=
  claim_C8 (UpstreamOutcome.transportFail "Failed to connect")
    "LLM generation failed: Failed to connect" rfl

/-- C6: in phase B of `process_message`, if the session id is no longer in
the store when the backend response arrives — the concurrent environment
`interfere` removed it during the unlocked phase — the call still returns the
computed response, and the store is exactly the interfered store: phase B
does not reinsert the session, change anything, or raise. -/
theorem claim_C6 (U : List ChatMessage → UpstreamOutcome) (k : Int)
    (interfere : Store → Store) (st : Store) (sid sp um : String) (now : Int)
    (r : String)
    (hok : LLMClient.generate (U (SessionManager.phaseA k st sid sp um now).1) = .ok r)
    (hgone : (interfere (SessionManager.phaseA k st sid sp um now).2).find sid = none) :
    SessionManager.process_message_env U k interfere st sid sp um now =
      (.ok r, interfere (SessionManager.phaseA k st sid sp um now).2) := by
  simp only [SessionManager.process_message_env, hok, SessionManager.phaseB, hgone]

/-- Witness for C6: a concurrent `clear_session` during the unlocked phase of
the very first turn of a session. -/
theorem claim_C6_witness :
    SessionManager.process_message_env echoOutcome 2
      (fun st => SessionManager.clear_session st "s") Store.empty "s" "P" "hi" 0 =
      (.ok "re:hi",
       (fun st => SessionManager.clear_session st "s")
         (SessionManager.phaseA 2 Store.empty "s" "P" "hi" 0).2) :=
  claim_C6 echoOutcome 2 (fun st => SessionManager.clear_session st "s")
    Store.empty "s" "P" "hi" 0 "re:hi" rfl rfl

/-- C7: for the same inputs and starting store, when `process_message`
succeeds with some string, the concatenation in delivery order of the chunks
handed to the streaming callback by `process_message_stream` equals that
string (the deterministic always-succeeding backend is the function `U`,
shared by both calls). -/
theorem claim_C7 (U : List ChatMessage → UpstreamOutcome) (k : Int) (st : Store)
    (sid sp um : String) (now : Int) (r : String)
    (hok : (SessionManager.process_message U k st sid sp um now).1 = .ok r) :
    collect_chunks (SessionManager.process_message_stream U k st sid sp um now).1 = r := by
  simp only [SessionManager.process_message, SessionManager.process_message_env] at hok
  cases hgen : LLMClient.generate (U (SessionManager.phaseA k st sid sp um now).1) with
  | error e =>
    rw [hgen] at hok
    simp at hok
  | ok v =>
    rw [hgen] at hok
    have hv : v = r := by simpa using hok
    subst hv
    simp only [SessionManager.process_message_stream, LLMClient.generate_stream, hgen]
    exact collect_chunks_of_chunkChars v

/-- Witness for C7 at a concrete turn. -/
theorem claim_C7_witness :
    collect_chunks
      (SessionManager.process_message_stream echoOutcome 2 Store.empty
        "s" "P" "a longer user message" 0).1 = "re:a longer user message" :=
  claim_C7 echoOutcome 2 Store.empty "s" "P" "a longer user message" 0
    "re:a longer user message" rfl

/-- C9: for a session id already present in the store, a later
`process_message` or `process_message_stream` call carrying a different (or
any) system prompt leaves the stored position-0 message unchanged: the
session keeps the directive it was seeded with. -/
theorem claim_C9 (U : List ChatMessage → UpstreamOutcome) (k : Int) (st : Store)
    (sid : String) (sess : Session) (hfind : st.find sid = some sess)
    (hne : sess.dialog ≠ []) (sp2 um : String) (now : Int) :
    (∃ s1, (SessionManager.process_message U k st sid sp2 um now).2.find sid = some s1 ∧
      s1.dialog.head? = sess.dialog.head?) ∧
    (∃ s2, (SessionManager.process_message_stream U k st sid sp2 um now).2.find sid = some s2 ∧
      s2.dialog.head? = sess.dialog.head?) := by
  obtain ⟨s1, hfind1, hdial⟩ := SessionManager.phaseA_find_self k st sid sp2 um now
  have hhead : s1.dialog.head? = sess.dialog.head? := by
    rw [hdial]
    exact SessionManager.phaseA_snapshot_head? k st sid sp2 um now sess hfind hne
  have hs1ne : s1.dialog ≠ [] := by
    intro hnil
    rw [hnil] at hhead
    cases hd : sess.dialog with
    | nil => exact hne hd
    | cons m t => rw [hd] at hhead; simp at hhead
  constructor
  · simp only [SessionManager.process_message, SessionManager.process_message_env]
    cases hgen : LLMClient.generate (U (SessionManager.phaseA k st sid sp2 um now).1) with
    | error e =>
      simp only [hgen, id]
      exact ⟨s1, hfind1, hhead⟩
    | ok r =>
      simp only [hgen, id, SessionManager.phaseB, hfind1]
      refine ⟨_, Store.find_set_self _ _ _, ?_⟩
      simp only [head?_append_left _ _ hs1ne]
      exact hhead
  · simp only [SessionManager.process_message_stream, SessionManager.phaseB, hfind1]
    refine ⟨_, Store.find_set_self _ _ _, ?_⟩
    simp only [head?_append_left _ _ hs1ne]
    exact hhead

/-- Witness for C9: the session seeded with prompt `P` keeps its directive
after a second turn carrying prompt `Q`. -/
theorem claim_C9_witness :
    (∃ s1, (SessionManager.process_message echoOutcome 2
        (SessionManager.process_message echoOutcome 2 Store.empty "s" "P" "hi" 0).2
        "s" "Q" "again" 0).2.find "s" = some s1 ∧
      s1.dialog.head? =
        (Session.mk [ChatMessage.mk "system" "P", ChatMessage.mk "user" "hi",
          ChatMessage.mk "assistant" "re:hi"] 0 0 1).dialog.head?) ∧
    (∃ s2, (SessionManager.process_message_stream echoOutcome 2
        (SessionManager.process_message echoOutcome 2 Store.empty "s" "P" "hi" 0).2
        "s" "Q" "again" 0).2.find "s" = some s2 ∧
      s2.dialog.head? =
        (Session.mk [ChatMessage.mk "system" "P", ChatMessage.mk "user" "hi",
          ChatMessage.mk "assistant" "re:hi"] 0 0 1).dialog.head?) :=
  claim_C9 echoOutcome 2
    (SessionManager.process_message echoOutcome 2 Store.empty "s" "P" "hi" 0).2
    "s" (Session.mk [ChatMessage.mk "system" "P", ChatMessage.mk "user" "hi",
      ChatMessage.mk "assistant" "re:hi"] 0 0 1)
    (by decide) (by decide) "Q" "again" 0

/-- C2: for a dialog that starts with a system message (and, as everywhere in
this manager, has no later system entries), the trimming pass rewrites the
dialog exactly when the number of non-system messages exceeds
`2 x maxHistory`, and in that case the result is the original position-0
system message followed by the last `2 x maxHistory` elements of the original
dialog — a raw suffix cut. -/
theorem claim_C2 (k : Int) (hk : 0 ≤ k) (d : List ChatMessage)
    (hhead : d.head?.map ChatMessage.role = some "system")
    (htail : ∀ m ∈ d.tail, m.role ≠ "system") :
    (SessionManager.trim_history k d ≠ d ↔ ((nonSystemCount d : Int) > 2 * k)) ∧
    (((nonSystemCount d : Int) > 2 * k) →
      SessionManager.trim_history k d =
        d.head?.toList ++ d.drop (d.length - (2 * k).toNat)) := by
  obtain ⟨m, t, rfl, hrole⟩ : ∃ m t, d = m :: t ∧ m.role = "system" := by
    cases d with
    | nil => simp at hhead
    | cons m t => exact ⟨m, t, rfl, by simpa using hhead⟩
  simp only [List.tail_cons] at htail
  have hcount : nonSystemCount (m :: t) = t.length := by
    simp only [nonSystemCount, List.filter_cons, hrole]
    simp only [bne_self_eq_false, Bool.false_eq_true, if_false]
    rw [List.filter_eq_self.mpr]
    intro a ha
    simpa using htail a ha
  rw [hcount]
  by_cases hcond : ((t.length : Int)) > 2 * k
  · have h1 : 1 < (m :: t).length := by simp; omega
    have h2 : ((m :: t).length : Int) - 1 > k * 2 := by
      simp only [List.length_cons]
      push_cast
      omega
    have htrim : SessionManager.trim_history k (m :: t) =
        m :: (m :: t).drop ((((m :: t).length : Int) - k * 2).toNat) := by
      simp only [SessionManager.trim_history, if_pos h1, if_pos h2]
    have hidx : ((((m :: t).length : Int) - k * 2)).toNat =
        (m :: t).length - (2 * k).toNat := by
      simp only [List.length_cons]
      omega
    constructor
    · constructor
      · intro _
        exact hcond
      · intro _
        rw [htrim]
        intro heq
        have hlen := congrArg List.length heq
        simp only [List.length_cons, List.length_drop] at hlen
        omega
    · intro _
      rw [htrim, hidx]
      rfl
  · have htrim : SessionManager.trim_history k (m :: t) = m :: t := by
      simp only [SessionManager.trim_history]
      split_ifs with h1 h2
      · exfalso
        simp only [List.length_cons] at h2
        push_cast at h2
        omega
      · rfl
      · rfl
    rw [htrim]
    constructor
    · simp only [ne_eq, not_true_eq_false, false_iff]
      omega
    · intro hc
      exact absurd hc (by omega)

/-- Witness for C2: with `maxHistory = 1`, a dialog with three non-system
messages is rewritten to the system message plus the last two entries. -/
theorem claim_C2_witness :
    (SessionManager.trim_history 1
        [ChatMessage.mk "system" "P", ChatMessage.mk "user" "a",
         ChatMessage.mk "assistant" "b", ChatMessage.mk "user" "c"] ≠
      [ChatMessage.mk "system" "P", ChatMessage.mk "user" "a",
       ChatMessage.mk "assistant" "b", ChatMessage.mk "user" "c"] ↔
      ((nonSystemCount
        [ChatMessage.mk "system" "P", ChatMessage.mk "user" "a",
         ChatMessage.mk "assistant" "b", ChatMessage.mk "user" "c"] : Int) > 2 * 1)) ∧
    (((nonSystemCount
        [ChatMessage.mk "system" "P", ChatMessage.mk "user" "a",
         ChatMessage.mk "assistant" "b", ChatMessage.mk "user" "c"] : Int) > 2 * 1) →
      SessionManager.trim_history 1
        [ChatMessage.mk "system" "P", ChatMessage.mk "user" "a",
         ChatMessage.mk "assistant" "b", ChatMessage.mk "user" "c"] =
        [ChatMessage.mk "system" "P", ChatMessage.mk "user" "a",
         ChatMessage.mk "assistant" "b", ChatMessage.mk "user" "c"].head?.toList ++
        [ChatMessage.mk "system" "P", ChatMessage.mk "user" "a",
         ChatMessage.mk "assistant" "b", ChatMessage.mk "user" "c"].drop
          ([ChatMessage.mk "system" "P", ChatMessage.mk "user" "a",
            ChatMessage.mk "assistant" "b", ChatMessage.mk "user" "c"].length -
            ((2 * 1 : Int)).toNat)) :=
  claim_C2 1 (by decide)
    [ChatMessage.mk "system" "P", ChatMessage.mk "user" "a",
     ChatMessage.mk "assistant" "b", ChatMessage.mk "user" "c"]
    (by decide) (by decide)

/-- C10: when the backend call inside `process_message_stream` fails, the
single in-band error chunk is also appended to the dialog of the session as
its assistant message, and a subsequent turn on that session (with
`maxHistory >= 1`) includes the stored error text in the snapshot that is
sent to the backend. -/
theorem claim_C10 (U : List ChatMessage → UpstreamOutcome) (k : Int) (st : Store)
    (sid sp um : String) (now : Int) (e : String)
    (hfail : LLMClient.generate (U (SessionManager.phaseA k st sid sp um now).1) =
      .error e)
    (hk : 1 ≤ k) (sp2 um2 : String) (now2 : Int) :
    (SessionManager.process_message_stream U k st sid sp um now).1 = ["Error: " ++ e] ∧
    (∃ sess,
      (SessionManager.process_message_stream U k st sid sp um now).2.find sid = some sess ∧
      sess.dialog.getLast? = some (ChatMessage.mk "assistant" ("Error: " ++ e)) ∧
      ChatMessage.mk "assistant" ("Error: " ++ e) ∈
        (SessionManager.phaseA k
          (SessionManager.process_message_stream U k st sid sp um now).2
          sid sp2 um2 now2).1) := by
  obtain ⟨s1, hfind1, hdial⟩ := SessionManager.phaseA_find_self k st sid sp um now
  have hchunks :
      LLMClient.generate_stream (U (SessionManager.phaseA k st sid sp um now).1) =
        ["Error: " ++ e] := by
    simp [LLMClient.generate_stream, hfail]
  have hrun : SessionManager.process_message_stream U k st sid sp um now =
      (["Error: " ++ e],
        (SessionManager.phaseA k st sid sp um now).2.set sid
          { s1 with
            dialog := s1.dialog ++ [ChatMessage.mk "assistant" ("Error: " ++ e)] }) := by
    simp only [SessionManager.process_message_stream, hchunks, collect_chunks_singleton,
      SessionManager.phaseB, hfind1]
  rw [hrun]
  refine ⟨rfl, _, Store.find_set_self _ _ _, ?_, ?_⟩
  · simp [List.getLast?_concat]
  · have hfind2 :
        ((SessionManager.phaseA k st sid sp um now).2.set sid
          { s1 with
            dialog := s1.dialog ++ [ChatMessage.mk "assistant" ("Error: " ++ e)] }).find sid =
        some { s1 with
          dialog := s1.dialog ++ [ChatMessage.mk "assistant" ("Error: " ++ e)] } :=
      Store.find_set_self _ _ _
    rw [SessionManager.phaseA_snapshot_of_found hfind2 k sp2 um2 now2]
    have hform : (s1.dialog ++ [ChatMessage.mk "assistant" ("Error: " ++ e)]) ++
        [ChatMessage.mk "user" um2] =
        s1.dialog ++ [ChatMessage.mk "assistant" ("Error: " ++ e),
          ChatMessage.mk "user" um2] := by
      simp
    rw [hform]
    apply SessionManager.mem_trim_history_of_mem_drop_two hk
    have hdrop : (s1.dialog ++ [ChatMessage.mk "assistant" ("Error: " ++ e),
        ChatMessage.mk "user" um2]).drop
        ((s1.dialog ++ [ChatMessage.mk "assistant" ("Error: " ++ e),
          ChatMessage.mk "user" um2]).length - 2) =
        [ChatMessage.mk "assistant" ("Error: " ++ e), ChatMessage.mk "user" um2] := by
      have hlen : (s1.dialog ++ [ChatMessage.mk "assistant" ("Error: " ++ e),
          ChatMessage.mk "user" um2]).length - 2 = s1.dialog.length := by
        simp [List.length_append]
      rw [hlen]
      exact List.drop_left _ _
    rw [hdrop]
    simp

/-- Witness for C10: a failing backend on the first turn of a fresh session,
followed by a second turn. -/
theorem claim_C10_witness :
    (SessionManager.process_message_stream (fun _ => UpstreamOutcome.transportFail "refused")
      2 Store.empty "s" "P" "hi" 0).1 =
      ["Error: " ++ "LLM generation failed: refused"] ∧
    (∃ sess,
      (SessionManager.process_message_stream (fun _ => UpstreamOutcome.transportFail "refused")
        2 Store.empty "s" "P" "hi" 0).2.find "s" = some sess ∧
      sess.dialog.getLast? =
        some (ChatMessage.mk "assistant" ("Error: " ++ "LLM generation failed: refused")) ∧
      ChatMessage.mk "assistant" ("Error: " ++ "LLM generation failed: refused") ∈
        (SessionManager.phaseA 2
          (SessionManager.process_message_stream
            (fun _ => UpstreamOutcome.transportFail "refused")
            2 Store.empty "s" "P" "hi" 0).2
          "s" "Q" "next" 1).1) :=
  claim_C10 (fun _ => UpstreamOutcome.transportFail "refused") 2 Store.empty
    "s" "P" "hi" 0 "LLM generation failed: refused" rfl (by decide) "Q" "next" 1

end PromptPortal
